import Mathlib

/-!
Shallow embedding of the kernel dispatch core declared in
include/onnxruntime/core/framework/kernel_registry.h, together with proofs
about its behaviour.

The header gives full bodies for KernelTypeStrResolver.ResolveKernelTypeStr,
KernelTypeStrResolver.Register, KernelRegistry.HasImplementationOf,
KernelRegistry.GetMapKey and KernelRegistry.IsEmpty; those are translated
directly.  The bodies of KernelRegistry.Register, KernelRegistry.TryFindKernel,
KernelRegistry.VerifyKernelDef and KernelRegistry.TryFindKernelByHash are only
declared in the header, so their definitions below are modelled from the spec
(each such definition says so in its doc comment).

C++ hash maps and multimaps are modelled as association lists (insertion
ordered); machine hash values and element types are modelled as Nat;
registry-owned entries are identified by their index in the registration
order, which models the C++ iterator/pointer identity of an entry.
-/

namespace onnxruntime

/-- Argument kind of a node argument position: input or output. -/
inductive ArgType where
  | input
  | output
deriving DecidableEq

/-- Pair of argument kind and index, as in the header's ArgTypeAndIndex. -/
abbrev ArgTypeAndIndex := ArgType × Nat

/-- Operator identity (domain, op type, since-version), as in the header's
OpIdentifier tuple: component 0 is the domain, component 1 the op type,
component 2 the opset version. -/
abbrev OpIdentifier := String × String × Nat

/-- Concrete element type of a tensor argument, modelled as Nat. -/
abbrev MLDataType := Nat

/-- Kernel definition content hash, modelled as Nat. -/
abbrev HashValue := Nat

/-- Execution provider identifier. -/
abbrev ProviderType := String

/-- First value bound to a key in an association list, or none. -/
def lookupList {α β : Type} [DecidableEq α] : List (α × β) → α → Option β
  | [], _ => none
  | (k, v) :: rest, a => if k = a then some v else lookupList rest a

/-- Association-list analogue of std map try_emplace: insert the pair if the
key is absent and report true; if the key is present, leave the list exactly
as it is and report false. -/
def tryEmplace {α β : Type} [DecidableEq α] (l : List (α × β)) (k : α) (v : β) :
    Bool × List (α × β) :=
  match l with
  | [] => (true, [(k, v)])
  | (k0, v0) :: rest =>
    if k0 = k then (false, (k0, v0) :: rest)
    else
      let r := tryEmplace rest k v
      (r.1, (k0, v0) :: r.2)

/-- State of a KernelTypeStrResolver: the nested map op_type_str_map_ from
operator identity to kernel type string to governed argument positions. -/
structure KernelTypeStrResolver where
  opTypeStrMap : List (OpIdentifier × List (String × List ArgTypeAndIndex))
deriving DecidableEq

/-- Structured content of the ORT_THROW diagnostic raised by
ResolveKernelTypeStr: the type string that failed to resolve and the
operator's op type, domain and version interpolated into the message. -/
structure ResolveError where
  typeStr : String
  opName : String
  domain : String
  version : Nat
deriving DecidableEq

/-- Message text of the ResolveKernelTypeStr diagnostic, concatenated exactly
as the ORT_THROW call in the header does. -/
def ResolveError.message (e : ResolveError) : String :=
  "Failed to resolve type string '" ++ e.typeStr ++ "' for op " ++
    e.opName ++ ":" ++ e.domain ++ "(" ++ toString e.version ++ ")"

/-- Translation of KernelTypeStrResolver::ResolveKernelTypeStr: look up the
operator identity, then the kernel type string, and return the bound argument
positions; on either miss, fail with the ORT_THROW diagnostic (modelled as an
Except error carrying the interpolated values). -/
def KernelTypeStrResolver.ResolveKernelTypeStr (r : KernelTypeStrResolver)
    (opId : OpIdentifier) (kernelTypeStr : String) :
    Except ResolveError (List ArgTypeAndIndex) :=
  match lookupList r.opTypeStrMap opId with
  | some typeStrMap =>
    match lookupList typeStrMap kernelTypeStr with
    | some args => .ok args
    | none => .error ⟨kernelTypeStr, opId.2.1, opId.1, opId.2.2⟩
  | none => .error ⟨kernelTypeStr, opId.2.1, opId.1, opId.2.2⟩

/-- Helper for KernelTypeStrResolver.Register: walk the outer map, defaulting
the inner map for a missing identity (as operator square-bracket access does)
and then try_emplace the binding into the inner map. -/
def registerAux :
    List (OpIdentifier × List (String × List ArgTypeAndIndex)) → OpIdentifier →
    String → List ArgTypeAndIndex →
    Bool × List (OpIdentifier × List (String × List ArgTypeAndIndex))
  | [], opId, typeStr, args => (true, [(opId, [(typeStr, args)])])
  | (k, inner) :: rest, opId, typeStr, args =>
    if k = opId then
      let r := tryEmplace inner typeStr args
      (r.1, (k, r.2) :: rest)
    else
      let r := registerAux rest opId typeStr args
      (r.1, (k, inner) :: r.2)

/-- Translation of KernelTypeStrResolver::Register:
op_type_str_map_[op_id].try_emplace(type_str, args).second, returning the
insertion flag together with the updated resolver state. -/
def KernelTypeStrResolver.Register (r : KernelTypeStrResolver)
    (opId : OpIdentifier) (typeStr : String) (args : List ArgTypeAndIndex) :
    Bool × KernelTypeStrResolver :=
  let res := registerAux r.opTypeStrMap opId typeStr args
  (res.1, ⟨res.2⟩)

/-- Binding currently stored for an identity and type string, if any. -/
def boundArgs (r : KernelTypeStrResolver) (opId : OpIdentifier)
    (typeStr : String) : Option (List ArgTypeAndIndex) :=
  match lookupList r.opTypeStrMap opId with
  | some inner => lookupList inner typeStr
  | none => none

/-- Graph node as consumed by this core: domain, op type, since-version, the
already-resolved provider assignment (empty string when unset, as in the
header comment on VerifyKernelDef), and the concrete element type of every
input and output position. -/
structure Node where
  domain : String
  opType : String
  sinceVersion : Nat
  providerType : String
  inputTypes : List MLDataType
  outputTypes : List MLDataType
deriving DecidableEq

/-- Translation of OpIdFromNode: the identity tuple of a node. -/
def OpIdFromNode (n : Node) : OpIdentifier := (n.domain, n.opType, n.sinceVersion)

/-- Element type of the node argument at a given position, none when the
position is out of range. -/
def Node.argElemType (n : Node) : ArgTypeAndIndex → Option MLDataType
  | (ArgType.input, i) => n.inputTypes.get? i
  | (ArgType.output, i) => n.outputTypes.get? i

/-- Kernel definition: op name, domain, provider, the declared per-type-string
element-type constraints, and the deterministic content hash. -/
structure KernelDef where
  opName : String
  domain : String
  provider : String
  typeConstraints : List (String × List MLDataType)
  hashValue : HashValue
deriving DecidableEq

/-- Registry entry: a kernel definition together with its create function,
the latter opaque and modelled by a numeric tag. -/
structure KernelCreateInfo where
  kernelDef : KernelDef
  kernelCreateId : Nat
deriving DecidableEq

/-- Canonical alias substituted for the empty ONNX domain in map keys. -/
def kOnnxDomainAlias : String := "ai.onnx"

/-- Translation of KernelRegistry::GetMapKey: op name, blank, domain (with
kOnnxDomainAlias substituted when the domain is empty), blank, provider. -/
def GetMapKey (opName domain provider : String) : String :=
  opName ++ " " ++ (if domain = "" then kOnnxDomainAlias else domain)
    ++ " " ++ provider

/-- Translation of the KernelDef overload of KernelRegistry::GetMapKey. -/
def GetMapKeyOfDef (kernelDef : KernelDef) : String :=
  GetMapKey kernelDef.opName kernelDef.domain kernelDef.provider

/-- Registration-time failure. -/
inductive RegistrationError where
  | DuplicateHash
deriving DecidableEq

/-- Lookup-time failures of the matcher and of the hash path. -/
inductive KernelLookupError where
  | NoKernelForOp
  | NoMatchingKernel
  | AmbiguousKernel
  | HashNotFound
deriving DecidableEq

/-- State of a KernelRegistry: kernel_creator_fn_map_ as an insertion-ordered
association list from composite key to entry, and kernel_def_hash_lookup_
mapping a definition hash to the index of its entry in that list (the index
models the C++ iterator stored in the map). -/
structure KernelRegistry where
  kernelCreatorFnMap : List (String × KernelCreateInfo)
  kernelDefHashLookup : List (HashValue × Nat)
deriving DecidableEq

/-- Registry with no registrations. -/
def KernelRegistry.empty : KernelRegistry := ⟨[], []⟩

/-- Translation of KernelRegistry::IsEmpty. -/
def KernelRegistry.IsEmpty (r : KernelRegistry) : Bool :=
  r.kernelCreatorFnMap.isEmpty

/-- Modelled from the spec: the body of KernelRegistry::Register is only
declared in the header.  Spec 4.2: compute the composite key, append a new
entry under it, and insert the content hash into the secondary index, failing
with DuplicateHash if the hash already exists (the failing registration
leaves the registry unchanged, matching the injectivity invariant I3). -/
def KernelRegistry.Register (r : KernelRegistry) (info : KernelCreateInfo) :
    Except RegistrationError Unit × KernelRegistry :=
  if (lookupList r.kernelDefHashLookup info.kernelDef.hashValue).isSome then
    (.error RegistrationError.DuplicateHash, r)
  else
    (.ok (),
     ⟨r.kernelCreatorFnMap ++ [(GetMapKeyOfDef info.kernelDef, info)],
      r.kernelDefHashLookup ++
        [(info.kernelDef.hashValue, r.kernelCreatorFnMap.length)]⟩)

/-- Registry reached from empty by a sequence of Register calls. -/
def registerAll (infos : List KernelCreateInfo) : KernelRegistry :=
  infos.foldl (fun r info => (r.Register info).2) KernelRegistry.empty

/-- Verdict on one declared type constraint of a candidate: resolve its type
string through the resolver (failure to resolve, or an empty position list,
rejects the candidate), then require the node's actual element type at every
governed position to be a member of the accepted set. -/
def verifyConstraint (n : Node) (res : KernelTypeStrResolver)
    (c : String × List MLDataType) : Bool :=
  match res.ResolveKernelTypeStr (OpIdFromNode n) c.1 with
  | .error _ => false
  | .ok positions =>
    !positions.isEmpty &&
      positions.all fun p =>
        match n.argElemType p with
        | some t => c.2.contains t
        | none => false

/-- Modelled from the spec: the body of KernelRegistry::VerifyKernelDef is
only declared in the header.  Spec 4.3 step 3 and the header comment: when
the node carries an assigned provider it must equal the candidate's provider
and the caller-supplied exec provider is ignored; otherwise the candidate's
provider must equal the exec provider; then every declared type constraint
must accept the node's actual types. -/
def VerifyKernelDef (n : Node) (kernelDef : KernelDef)
    (res : KernelTypeStrResolver) (execProvider : ProviderType) : Bool :=
  (if n.providerType = "" then decide (kernelDef.provider = execProvider)
   else decide (kernelDef.provider = n.providerType)) &&
    kernelDef.typeConstraints.all (verifyConstraint n res)

/-- Composite key used by the matcher for a node and target provider. -/
def lookupKeyFor (n : Node) (execProvider : ProviderType) : String :=
  GetMapKey n.opType n.domain execProvider

/-- Whether the registry entry at an index is stored under the node's
composite lookup key. -/
def isCandidateAt (r : KernelRegistry) (n : Node) (execProvider : ProviderType)
    (i : Nat) : Bool :=
  match r.kernelCreatorFnMap.get? i with
  | some e => decide (e.1 = lookupKeyFor n execProvider)
  | none => false

/-- Whether the registry entry at an index passes kernel-def verification. -/
def survivesAt (r : KernelRegistry) (n : Node) (execProvider : ProviderType)
    (res : KernelTypeStrResolver) (i : Nat) : Bool :=
  match r.kernelCreatorFnMap.get? i with
  | some e => VerifyKernelDef n e.2.kernelDef res execProvider
  | none => false

/-- Indices of the candidate entries under the node's composite key, in
registration order. -/
def candidateIndices (r : KernelRegistry) (n : Node)
    (execProvider : ProviderType) : List Nat :=
  (List.range r.kernelCreatorFnMap.length).filter (isCandidateAt r n execProvider)

/-- Indices of the candidates that pass verification, in registration order. -/
def survivorIndices (r : KernelRegistry) (n : Node)
    (execProvider : ProviderType) (res : KernelTypeStrResolver) : List Nat :=
  (candidateIndices r n execProvider).filter (survivesAt r n execProvider res)

/-- Modelled from the spec: the body of KernelRegistry::TryFindKernel is only
declared in the header.  Spec 4.3: gather the candidates under the composite
key (no candidate at all fails with NoKernelForOp), verify each, then succeed
exactly on a unique survivor, failing with NoMatchingKernel when candidates
exist but none verifies and with AmbiguousKernel on several survivors.  The
returned index into the registration order models the registry-owned pointer
to the entry. -/
def KernelRegistry.TryFindKernel (r : KernelRegistry) (n : Node)
    (execProvider : ProviderType) (res : KernelTypeStrResolver) :
    Except KernelLookupError Nat :=
  match survivorIndices r n execProvider res with
  | [] =>
    if candidateIndices r n execProvider = [] then
      .error KernelLookupError.NoKernelForOp
    else
      .error KernelLookupError.NoMatchingKernel
  | [i] => .ok i
  | _ :: _ :: _ => .error KernelLookupError.AmbiguousKernel

/-- Modelled from the spec: the body of KernelRegistry::TryFindKernelByHash
is only declared in the header.  Spec 4.4: direct lookup in the secondary
index, no type or provider re-verification, HashNotFound on a miss. -/
def KernelRegistry.TryFindKernelByHash (r : KernelRegistry) (h : HashValue) :
    Except KernelLookupError Nat :=
  match lookupList r.kernelDefHashLookup h with
  | some i => .ok i
  | none => .error KernelLookupError.HashNotFound

/-- Success test on a lookup status, as Status::IsOK. -/
def statusIsOK {ε α : Type} : Except ε α → Bool
  | .ok _ => true
  | .error _ => false

/-- Translation of KernelRegistry::HasImplementationOf: run TryFindKernel,
discard the found entry and report whether the status is OK.  The schema
environment consulted by the schema-aware TryFindKernel overload is shallow
embedded as the explicit resolver argument. -/
def HasImplementationOf (r : KernelRegistry) (n : Node)
    (execProvider : ProviderType) (res : KernelTypeStrResolver) : Bool :=
  statusIsOK (r.TryFindKernel n execProvider res)

/-- Well-formedness of the secondary hash index: every index pair points to
an entry carrying that hash, and every entry's hash looks up to that entry's
own index (which forces hash injectivity across entries). -/
def hashIndexWF (r : KernelRegistry) : Prop :=
  (∀ h i, lookupList r.kernelDefHashLookup h = some i →
    ∃ e, r.kernelCreatorFnMap.get? i = some e ∧ e.2.kernelDef.hashValue = h) ∧
  (∀ i e, r.kernelCreatorFnMap.get? i = some e →
    lookupList r.kernelDefHashLookup e.2.kernelDef.hashValue = some i)

/-- Decidable equality of lookup and registration results, so that concrete
runs of the embedded operations can be checked by evaluation. -/
instance exceptDecidableEq {ε α : Type} [DecidableEq ε] [DecidableEq α] :
    DecidableEq (Except ε α) :=
  fun a b =>
    match a, b with
    | .ok x, .ok y => decidable_of_iff (x = y) (by simp)
    | .error x, .error y => decidable_of_iff (x = y) (by simp)
    | .ok _, .error _ => isFalse (by simp)
    | .error _, .ok _ => isFalse (by simp)

theorem lookupList_tryEmplace_self {α β : Type} [DecidableEq α]
    (l : List (α × β)) (k : α) (v : β) :
    lookupList (tryEmplace l k v).2 k = some ((lookupList l k).getD v) := by
  induction l with
  | nil => simp [tryEmplace, lookupList]
  | cons hd tl ih =>
    obtain ⟨k0, v0⟩ := hd
    by_cases hk : k0 = k
    · subst hk
      simp [tryEmplace, lookupList]
    · simp [tryEmplace, lookupList, hk, ih]

theorem tryEmplace_of_mem {α β : Type} [DecidableEq α]
    (l : List (α × β)) (k : α) (v w : β) (h : lookupList l k = some w) :
    tryEmplace l k v = (false, l) := by
  induction l with
  | nil => simp [lookupList] at h
  | cons hd tl ih =>
    obtain ⟨k0, v0⟩ := hd
    by_cases hk : k0 = k
    · subst hk
      simp [tryEmplace]
    · simp [lookupList, hk] at h
      simp [tryEmplace, hk, ih h]

theorem tryEmplace_fst_eq {α β : Type} [DecidableEq α]
    (l : List (α × β)) (k : α) (v : β) :
    (tryEmplace l k v).1 = (lookupList l k).isNone := by
  induction l with
  | nil => simp [tryEmplace, lookupList]
  | cons hd tl ih =>
    obtain ⟨k0, v0⟩ := hd
    by_cases hk : k0 = k
    · subst hk
      simp [tryEmplace, lookupList]
    · simp [tryEmplace, lookupList, hk, ih]

theorem boundArgs_register_self (r : KernelTypeStrResolver) (opId : OpIdentifier)
    (typeStr : String) (args : List ArgTypeAndIndex) :
    boundArgs (r.Register opId typeStr args).2 opId typeStr =
      some ((boundArgs r opId typeStr).getD args) := by
  obtain ⟨m⟩ := r
  induction m with
  | nil => simp [KernelTypeStrResolver.Register, registerAux, boundArgs, lookupList]
  | cons hd tl ih =>
    obtain ⟨k, inner⟩ := hd
    by_cases hk : k = opId
    · subst hk
      simp [KernelTypeStrResolver.Register, registerAux, boundArgs, lookupList,
        lookupList_tryEmplace_self]
    · simp only [KernelTypeStrResolver.Register, registerAux, hk, if_false,
        boundArgs, lookupList] at ih ⊢
      simpa [hk] using ih

theorem register_of_bound (r : KernelTypeStrResolver) (opId : OpIdentifier)
    (typeStr : String) (args w : List ArgTypeAndIndex)
    (h : boundArgs r opId typeStr = some w) :
    r.Register opId typeStr args = (false, r) := by
  obtain ⟨m⟩ := r
  induction m with
  | nil => simp [boundArgs, lookupList] at h
  | cons hd tl ih =>
    obtain ⟨k, inner⟩ := hd
    by_cases hk : k = opId
    · subst hk
      simp only [boundArgs, lookupList, if_pos rfl] at h
      simp [KernelTypeStrResolver.Register, registerAux,
        tryEmplace_of_mem inner typeStr args w h]
    · simp only [boundArgs, lookupList, hk, if_false] at h
      have ih2 := ih (by simpa [boundArgs, lookupList] using h)
      simp only [KernelTypeStrResolver.Register, registerAux, hk, if_false] at ih2 ⊢
      have h1 : (registerAux tl opId typeStr args).1 = false := by
        have := congrArg Prod.fst ih2
        simpa using this
      have h2 : (registerAux tl opId typeStr args).2 = tl := by
        have := congrArg (fun p => (KernelTypeStrResolver.opTypeStrMap p.2)) ih2
        simpa using this
      simp [h1, h2]

theorem register_fst_eq (r : KernelTypeStrResolver) (opId : OpIdentifier)
    (typeStr : String) (args : List ArgTypeAndIndex) :
    (r.Register opId typeStr args).1 = (boundArgs r opId typeStr).isNone := by
  obtain ⟨m⟩ := r
  induction m with
  | nil => simp [KernelTypeStrResolver.Register, registerAux, boundArgs, lookupList]
  | cons hd tl ih =>
    obtain ⟨k, inner⟩ := hd
    by_cases hk : k = opId
    · subst hk
      simp [KernelTypeStrResolver.Register, registerAux, boundArgs, lookupList,
        tryEmplace_fst_eq]
    · simp only [KernelTypeStrResolver.Register, registerAux, hk, if_false,
        boundArgs, lookupList] at ih ⊢
      simpa [hk] using ih

theorem resolve_of_bound (r : KernelTypeStrResolver) (opId : OpIdentifier)
    (typeStr : String) (w : List ArgTypeAndIndex)
    (h : boundArgs r opId typeStr = some w) :
    r.ResolveKernelTypeStr opId typeStr = .ok w := by
  unfold boundArgs at h
  unfold KernelTypeStrResolver.ResolveKernelTypeStr
  cases ho : lookupList r.opTypeStrMap opId with
  | none => rw [ho] at h; exact absurd h (by simp)
  | some inner =>
    rw [ho] at h
    simp only [] at h
    simp [h]

theorem resolve_of_unbound (r : KernelTypeStrResolver) (opId : OpIdentifier)
    (typeStr : String) (h : boundArgs r opId typeStr = none) :
    r.ResolveKernelTypeStr opId typeStr =
      .error ⟨typeStr, opId.2.1, opId.1, opId.2.2⟩ := by
  unfold boundArgs at h
  unfold KernelTypeStrResolver.ResolveKernelTypeStr
  cases ho : lookupList r.opTypeStrMap opId with
  | none => rfl
  | some inner =>
    rw [ho] at h
    simp only [] at h
    simp [h]

theorem lookupList_append_of_some {α β : Type} [DecidableEq α]
    (l1 l2 : List (α × β)) (k : α) (v : β) (h : lookupList l1 k = some v) :
    lookupList (l1 ++ l2) k = some v := by
  induction l1 with
  | nil => simp [lookupList] at h
  | cons hd tl ih =>
    obtain ⟨k0, v0⟩ := hd
    by_cases hk : k0 = k
    · subst hk
      simp [lookupList] at h ⊢
      exact h
    · simp [lookupList, hk] at h ⊢
      exact ih h

theorem lookupList_append_of_none {α β : Type} [DecidableEq α]
    (l1 l2 : List (α × β)) (k : α) (h : lookupList l1 k = none) :
    lookupList (l1 ++ l2) k = lookupList l2 k := by
  induction l1 with
  | nil => simp [lookupList]
  | cons hd tl ih =>
    obtain ⟨k0, v0⟩ := hd
    by_cases hk : k0 = k
    · subst hk
      simp [lookupList] at h
    · simp [lookupList, hk] at h ⊢
      exact ih h

theorem register_ok_inversion (r r1 : KernelRegistry) (info : KernelCreateInfo)
    (h : r.Register info = (Except.ok (), r1)) :
    lookupList r.kernelDefHashLookup info.kernelDef.hashValue = none ∧
      r1 = ⟨r.kernelCreatorFnMap ++ [(GetMapKeyOfDef info.kernelDef, info)],
            r.kernelDefHashLookup ++
              [(info.kernelDef.hashValue, r.kernelCreatorFnMap.length)]⟩ := by
  unfold KernelRegistry.Register at h
  by_cases hd : (lookupList r.kernelDefHashLookup info.kernelDef.hashValue).isSome
  · rw [if_pos hd] at h
    exact absurd (congrArg Prod.fst h) (by simp)
  · rw [if_neg hd] at h
    refine ⟨Option.not_isSome_iff_eq_none.mp hd, ?_⟩
    exact (congrArg Prod.snd h).symm

theorem register_duplicate_inversion (r : KernelRegistry)
    (info : KernelCreateInfo)
    (h : (lookupList r.kernelDefHashLookup info.kernelDef.hashValue).isSome) :
    r.Register info = (Except.error RegistrationError.DuplicateHash, r) := by
  unfold KernelRegistry.Register
  rw [if_pos h]

theorem hashIndexWF_register (r : KernelRegistry) (info : KernelCreateInfo)
    (hwf : hashIndexWF r) : hashIndexWF (r.Register info).2 := by
  by_cases hd : (lookupList r.kernelDefHashLookup info.kernelDef.hashValue).isSome
  · unfold KernelRegistry.Register
    rw [if_pos hd]
    exact hwf
  · have hnone : lookupList r.kernelDefHashLookup info.kernelDef.hashValue = none :=
      Option.not_isSome_iff_eq_none.mp hd
    unfold KernelRegistry.Register
    rw [if_neg hd]
    obtain ⟨hwf1, hwf2⟩ := hwf
    constructor
    · intro h i hl
      simp only [] at hl
      cases hcase : lookupList r.kernelDefHashLookup h with
      | some j =>
        rw [lookupList_append_of_some _ _ _ _ hcase] at hl
        have hji : j = i := by injection hl
        subst hji
        obtain ⟨e, hge, hh⟩ := hwf1 h j hcase
        refine ⟨e, ?_, hh⟩
        have hj : j < r.kernelCreatorFnMap.length := (List.get?_eq_some.mp hge).1
        rw [List.get?_append hj]
        exact hge
      | none =>
        rw [lookupList_append_of_none _ _ _ hcase] at hl
        simp only [lookupList] at hl
        by_cases hh : info.kernelDef.hashValue = h
        · rw [if_pos hh] at hl
          obtain rfl : r.kernelCreatorFnMap.length = i := by injection hl
          refine ⟨(GetMapKeyOfDef info.kernelDef, info), ?_, hh⟩
          rw [List.get?_append_right (Nat.le_refl _)]
          simp
        · rw [if_neg hh] at hl
          exact absurd hl (by simp)
    · intro i e hge
      simp only [] at hge ⊢
      by_cases hi : i < r.kernelCreatorFnMap.length
      · rw [List.get?_append hi] at hge
        have hold := hwf2 i e hge
        exact lookupList_append_of_some _ _ _ _ hold
      · have hle : r.kernelCreatorFnMap.length ≤ i := Nat.le_of_not_lt hi
        rw [List.get?_append_right hle] at hge
        have hzero : i - r.kernelCreatorFnMap.length = 0 := by
          cases hdiff : i - r.kernelCreatorFnMap.length with
          | zero => rfl
          | succ m =>
            rw [hdiff] at hge
            simp at hge
        rw [hzero] at hge
        simp only [List.get?] at hge
        obtain rfl : (GetMapKeyOfDef info.kernelDef, info) = e := by injection hge
        have hieq : i = r.kernelCreatorFnMap.length :=
          Nat.le_antisymm (Nat.le_of_sub_eq_zero hzero) hle
        subst hieq
        rw [lookupList_append_of_none _ _ _ hnone]
        simp [lookupList]

theorem hashIndexWF_empty : hashIndexWF KernelRegistry.empty := by
  constructor
  · intro h i hl
    simp [KernelRegistry.empty, lookupList] at hl
  · intro i e hge
    simp [KernelRegistry.empty] at hge

theorem hashIndexWF_registerAll (infos : List KernelCreateInfo) :
    hashIndexWF (registerAll infos) := by
  suffices hgen : ∀ (l : List KernelCreateInfo) (r : KernelRegistry),
      hashIndexWF r → hashIndexWF (l.foldl (fun r info => (r.Register info).2) r) by
    exact hgen infos KernelRegistry.empty hashIndexWF_empty
  intro l
  induction l with
  | nil => intro r hr; simpa using hr
  | cons hd tl ih =>
    intro r hr
    exact ih ((r.Register hd).2) (hashIndexWF_register r hd hr)

theorem mem_survivorIndices (r : KernelRegistry) (n : Node)
    (p : ProviderType) (res : KernelTypeStrResolver) (i : Nat) :
    i ∈ survivorIndices r n p res ↔
      i < r.kernelCreatorFnMap.length ∧ isCandidateAt r n p i = true ∧
        survivesAt r n p res i = true := by
  simp only [survivorIndices, candidateIndices, List.mem_filter, List.mem_range]
  tauto

theorem tryFindKernel_ok_iff (r : KernelRegistry) (n : Node)
    (p : ProviderType) (res : KernelTypeStrResolver) (i : Nat) :
    r.TryFindKernel n p res = .ok i ↔ survivorIndices r n p res = [i] := by
  unfold KernelRegistry.TryFindKernel
  cases hs : survivorIndices r n p res with
  | nil =>
    by_cases hc : candidateIndices r n p = []
    · rw [if_pos hc]
      simp
    · rw [if_neg hc]
      simp
  | cons a t =>
    cases t with
    | nil => simp
    | cons b t2 => simp

theorem tryFindKernel_ok_entry (r : KernelRegistry) (n : Node)
    (p : ProviderType) (res : KernelTypeStrResolver) (i : Nat)
    (h : r.TryFindKernel n p res = .ok i) :
    ∃ e, r.kernelCreatorFnMap.get? i = some e ∧ e.1 = lookupKeyFor n p ∧
      VerifyKernelDef n e.2.kernelDef res p = true := by
  have hs := (tryFindKernel_ok_iff r n p res i).mp h
  have hmem : i ∈ survivorIndices r n p res := by rw [hs]; simp
  rw [mem_survivorIndices] at hmem
  obtain ⟨hlen, hc, hv⟩ := hmem
  unfold isCandidateAt at hc
  unfold survivesAt at hv
  cases hg : r.kernelCreatorFnMap.get? i with
  | none =>
    rw [hg] at hc
    simp at hc
  | some e =>
    rw [hg] at hc hv
    simp only [] at hc hv
    exact ⟨e, rfl, of_decide_eq_true hc, hv⟩

theorem register_ok_of_absent (r : KernelRegistry) (info : KernelCreateInfo)
    (h : lookupList r.kernelDefHashLookup info.kernelDef.hashValue = none) :
    r.Register info = (Except.ok (),
      ⟨r.kernelCreatorFnMap ++ [(GetMapKeyOfDef info.kernelDef, info)],
       r.kernelDefHashLookup ++
         [(info.kernelDef.hashValue, r.kernelCreatorFnMap.length)]⟩) := by
  unfold KernelRegistry.Register
  rw [h]
  rfl

/-- C6: the type-string resolver's Register is idempotent: registering the
same (identity, type string, positions) triple a second time returns false,
performs no insertion, and leaves the resolver state exactly as it was after
the first registration. -/
theorem register_typeStr_idempotent (r : KernelTypeStrResolver)
    (opId : OpIdentifier) (typeStr : String) (args : List ArgTypeAndIndex) :
    ((r.Register opId typeStr args).2).Register opId typeStr args =
      (false, (r.Register opId typeStr args).2) := by
  have hb := boundArgs_register_self r opId typeStr args
  exact register_of_bound _ opId typeStr args _ hb

/-- C7: a binding, once created, is never mutated: after a fresh registration
of (identity, type string, positions), a later Register for the same identity
and type string with any position list is a rejected no-op that leaves the
state unchanged, and resolution still returns the original positions. -/
theorem register_binding_immutable (r : KernelTypeStrResolver)
    (opId : OpIdentifier) (typeStr : String)
    (args1 args2 : List ArgTypeAndIndex)
    (hfresh : boundArgs r opId typeStr = none) :
    ((r.Register opId typeStr args1).2).Register opId typeStr args2 =
        (false, (r.Register opId typeStr args1).2) ∧
      ((r.Register opId typeStr args1).2).ResolveKernelTypeStr opId typeStr =
        .ok args1 := by
  have hb := boundArgs_register_self r opId typeStr args1
  rw [hfresh] at hb
  simp only [Option.getD_none] at hb
  exact ⟨register_of_bound _ opId typeStr args2 args1 hb,
         resolve_of_bound _ opId typeStr args1 hb⟩

/-- Witness for C7: registering ("", Relu, 14) type string T twice with two
different position lists keeps the first list resolvable. -/
theorem register_binding_immutable_witness :
    ((KernelTypeStrResolver.mk []).Register ("", "Relu", 14) "T"
        [(ArgType.input, 0)]).2.ResolveKernelTypeStr ("", "Relu", 14) "T" =
      .ok [(ArgType.input, 0)] :=
  (register_binding_immutable ⟨[]⟩ ("", "Relu", 14) "T" [(ArgType.input, 0)]
    [(ArgType.output, 0)] (by rfl)).2

/-- C9: resolving an unknown identity or type string fails with the NotFound
diagnostic carrying the operator's name, domain and version (delivered as an
explicit failure value whose message interpolates those fields), while a
bound pair resolves to the stored ordered positions. -/
theorem resolve_notfound_contract (r : KernelTypeStrResolver)
    (opId : OpIdentifier) (typeStr : String) :
    (boundArgs r opId typeStr = none →
      r.ResolveKernelTypeStr opId typeStr =
          .error ⟨typeStr, opId.2.1, opId.1, opId.2.2⟩ ∧
        ∃ s1 s2 s3 s4 : String,
          (ResolveError.mk typeStr opId.2.1 opId.1 opId.2.2).message =
            s1 ++ opId.2.1 ++ s2 ++ opId.1 ++ s3 ++ toString opId.2.2 ++ s4) ∧
    (∀ args, boundArgs r opId typeStr = some args →
      r.ResolveKernelTypeStr opId typeStr = .ok args) := by
  constructor
  · intro hnone
    exact ⟨resolve_of_unbound r opId typeStr hnone,
      ⟨"Failed to resolve type string '" ++ typeStr ++ "' for op ",
        ":", "(", ")", rfl⟩⟩
  · intro args hsome
    exact resolve_of_bound r opId typeStr args hsome

/-- Witness for C9: resolving type string T for Relu in an empty resolver
produces the NotFound diagnostic with name Relu, domain ai.onnx, version 14. -/
theorem resolve_notfound_contract_witness :
    (KernelTypeStrResolver.mk []).ResolveKernelTypeStr ("ai.onnx", "Relu", 14)
        "T" = .error ⟨"T", "Relu", "ai.onnx", 14⟩ :=
  ((resolve_notfound_contract ⟨[]⟩ ("ai.onnx", "Relu", 14) "T").1 (by rfl)).1

/-- C2: provider gating in VerifyKernelDef: with an assigned node provider the
caller-supplied exec provider is ignored and acceptance forces the
candidate's provider to equal the node's; with no assigned provider
acceptance forces it to equal the exec provider; and a node pre-assigned to
one provider never verifies a candidate of a different provider. -/
theorem verifyKernelDef_provider_gating (n : Node) (d : KernelDef)
    (res : KernelTypeStrResolver) (p q : ProviderType) :
    (n.providerType ≠ "" →
      VerifyKernelDef n d res p = VerifyKernelDef n d res q) ∧
    (n.providerType ≠ "" → VerifyKernelDef n d res p = true →
      d.provider = n.providerType) ∧
    (n.providerType = "" → VerifyKernelDef n d res p = true →
      d.provider = p) ∧
    (n.providerType ≠ "" → d.provider ≠ n.providerType →
      VerifyKernelDef n d res p = false) := by
  unfold VerifyKernelDef
  refine ⟨?_, ?_, ?_, ?_⟩
  · intro hne
    rw [if_neg hne, if_neg hne]
  · intro hne hv
    rw [if_neg hne] at hv
    exact of_decide_eq_true ((Bool.and_eq_true _ _).mp hv).1
  · intro heq hv
    rw [if_pos heq] at hv
    exact of_decide_eq_true ((Bool.and_eq_true _ _).mp hv).1
  · intro hne hdp
    rw [if_neg hne, decide_eq_false hdp]
    simp

/-- Witness for C2: a node assigned to CPU rejects a GPU-registered candidate
even though the candidate has no type constraints. -/
theorem verifyKernelDef_provider_gating_witness :
    VerifyKernelDef ⟨"ai.onnx", "Relu", 14, "CPU", [0], [0]⟩
      ⟨"Relu", "", "GPU", [], 5⟩ ⟨[]⟩ "GPU" = false :=
  (verifyKernelDef_provider_gating ⟨"ai.onnx", "Relu", 14, "CPU", [0], [0]⟩
    ⟨"Relu", "", "GPU", [], 5⟩ ⟨[]⟩ "GPU" "GPU").2.2.2 (by decide) (by decide)

/-- C8: the composite key substitutes the canonical ai.onnx alias for an
empty domain, so an empty-domain registration is stored under the same key a
lookup with the alias domain computes; concretely, an empty-domain Relu
registration for CPU matches a node with op Relu, domain ai.onnx, provider
CPU. -/
theorem getMapKey_domain_alias :
    (∀ opName provider : String,
      GetMapKey opName "" provider =
        GetMapKey opName kOnnxDomainAlias provider) ∧
    (KernelRegistry.empty.Register ⟨⟨"Relu", "", "CPU", [], 5⟩, 0⟩).2.TryFindKernel
        ⟨"ai.onnx", "Relu", 14, "", [0], [0]⟩ "CPU" ⟨[]⟩ = .ok 0 := by
  constructor
  · intro opName provider
    simp [GetMapKey, kOnnxDomainAlias]
  · decide

/-- C10: HasImplementationOf reports true exactly when TryFindKernel returns
a success status; it returns only that Boolean, discarding the found entry. -/
theorem hasImplementationOf_iff (r : KernelRegistry) (n : Node)
    (p : ProviderType) (res : KernelTypeStrResolver) :
    HasImplementationOf r n p res = true ↔
      ∃ i, r.TryFindKernel n p res = .ok i := by
  unfold HasImplementationOf
  cases hf : r.TryFindKernel n p res with
  | ok i => simp [statusIsOK]
  | error e => simp [statusIsOK]

/-- Witness for C10: the Relu registry has an implementation of the Relu
node on CPU, by the success of TryFindKernel at entry 0. -/
theorem hasImplementationOf_iff_witness :
    HasImplementationOf
      (KernelRegistry.empty.Register ⟨⟨"Relu", "", "CPU", [], 5⟩, 0⟩).2
      ⟨"ai.onnx", "Relu", 14, "", [0], [0]⟩ "CPU" ⟨[]⟩ = true :=
  (hasImplementationOf_iff
    (KernelRegistry.empty.Register ⟨⟨"Relu", "", "CPU", [], 5⟩, 0⟩).2
    ⟨"ai.onnx", "Relu", 14, "", [0], [0]⟩ "CPU" ⟨[]⟩).mpr ⟨0, by decide⟩

/-- Counterexample to C1 as stated: on an empty registry there are zero
surviving candidates, yet the search fails with NoKernelForOp rather than
NoMatchingKernel (the NoMatchingKernel diagnostic is reserved for the case
where candidates exist but none verifies). -/
theorem tryFindKernel_zero_survivors_counterexample :
    survivorIndices KernelRegistry.empty ⟨"ai.onnx", "Relu", 14, "", [0], [0]⟩
        "CPU" ⟨[]⟩ = [] ∧
      KernelRegistry.empty.TryFindKernel ⟨"ai.onnx", "Relu", 14, "", [0], [0]⟩
        "CPU" ⟨[]⟩ = .error KernelLookupError.NoKernelForOp ∧
      KernelLookupError.NoKernelForOp ≠ KernelLookupError.NoMatchingKernel := by
  refine ⟨by decide, by decide, by decide⟩

/-- C1 (amended): TryFindKernel succeeds, returning the registry-owned entry,
exactly when precisely one candidate under the composite key passes
verification; with zero survivors it fails with NoMatchingKernel when at
least one candidate exists under the key and with NoKernelForOp when none
does; with several survivors it fails with AmbiguousKernel instead of
silently picking a first match. -/
theorem tryFindKernel_characterization (r : KernelRegistry) (n : Node)
    (p : ProviderType) (res : KernelTypeStrResolver) :
    (∀ i, r.TryFindKernel n p res = .ok i ↔ survivorIndices r n p res = [i]) ∧
    (∀ i, r.TryFindKernel n p res = .ok i →
      ∃ e, r.kernelCreatorFnMap.get? i = some e ∧ e.1 = lookupKeyFor n p ∧
        VerifyKernelDef n e.2.kernelDef res p = true) ∧
    (survivorIndices r n p res = [] → candidateIndices r n p ≠ [] →
      r.TryFindKernel n p res = .error KernelLookupError.NoMatchingKernel) ∧
    (survivorIndices r n p res = [] → candidateIndices r n p = [] →
      r.TryFindKernel n p res = .error KernelLookupError.NoKernelForOp) ∧
    (2 ≤ (survivorIndices r n p res).length →
      r.TryFindKernel n p res = .error KernelLookupError.AmbiguousKernel) := by
  refine ⟨fun i => tryFindKernel_ok_iff r n p res i,
          fun i => tryFindKernel_ok_entry r n p res i, ?_, ?_, ?_⟩
  · intro hs hc
    unfold KernelRegistry.TryFindKernel
    rw [hs, if_neg hc]
  · intro hs hc
    unfold KernelRegistry.TryFindKernel
    rw [hs, if_pos hc]
  · intro hlen
    unfold KernelRegistry.TryFindKernel
    cases hs : survivorIndices r n p res with
    | nil => rw [hs] at hlen; simp at hlen
    | cons a t =>
      cases t with
      | nil => rw [hs] at hlen; simp at hlen
      | cons b t2 => rfl

/-- Witness for C1 (amended): a unique survivor is returned, and a candidate
that fails its type constraint yields NoMatchingKernel. -/
theorem tryFindKernel_characterization_witness :
    (KernelRegistry.empty.Register ⟨⟨"Relu", "", "CPU", [], 5⟩, 0⟩).2.TryFindKernel
        ⟨"ai.onnx", "Relu", 14, "", [0], [0]⟩ "CPU" ⟨[]⟩ = .ok 0 ∧
      (KernelRegistry.empty.Register
          ⟨⟨"Relu", "", "CPU", [("T", [3])], 5⟩, 0⟩).2.TryFindKernel
        ⟨"ai.onnx", "Relu", 14, "", [0], [0]⟩ "CPU" ⟨[]⟩ =
        .error KernelLookupError.NoMatchingKernel :=
  ⟨((tryFindKernel_characterization
      (KernelRegistry.empty.Register ⟨⟨"Relu", "", "CPU", [], 5⟩, 0⟩).2
      ⟨"ai.onnx", "Relu", 14, "", [0], [0]⟩ "CPU" ⟨[]⟩).1 0).mpr (by decide),
   (tryFindKernel_characterization
      (KernelRegistry.empty.Register ⟨⟨"Relu", "", "CPU", [("T", [3])], 5⟩, 0⟩).2
      ⟨"ai.onnx", "Relu", 14, "", [0], [0]⟩ "CPU" ⟨[]⟩).2.2.1
        (by decide) (by decide)⟩

/-- C5: TryFindKernelByHash is a direct lookup in the secondary index: a
registered hash returns its bound entry (with no type or provider
re-verification, since the result depends only on the index), and a hash
absent from the index fails with HashNotFound. -/
theorem tryFindKernelByHash_direct (r : KernelRegistry) (h : HashValue) :
    (∀ i, lookupList r.kernelDefHashLookup h = some i →
      r.TryFindKernelByHash h = .ok i) ∧
    (lookupList r.kernelDefHashLookup h = none →
      r.TryFindKernelByHash h = .error KernelLookupError.HashNotFound) ∧
    (∀ r2 : KernelRegistry, r2.kernelDefHashLookup = r.kernelDefHashLookup →
      r2.TryFindKernelByHash h = r.TryFindKernelByHash h) ∧
    (hashIndexWF r → ∀ i, r.TryFindKernelByHash h = .ok i →
      ∃ e, r.kernelCreatorFnMap.get? i = some e ∧
        e.2.kernelDef.hashValue = h) := by
  refine ⟨?_, ?_, ?_, ?_⟩
  · intro i hl
    unfold KernelRegistry.TryFindKernelByHash
    rw [hl]
  · intro hl
    unfold KernelRegistry.TryFindKernelByHash
    rw [hl]
  · intro r2 he
    unfold KernelRegistry.TryFindKernelByHash
    rw [he]
  · intro hwf i hok
    unfold KernelRegistry.TryFindKernelByHash at hok
    cases hl : lookupList r.kernelDefHashLookup h with
    | none =>
      rw [hl] at hok
      exact absurd hok (by simp)
    | some j =>
      rw [hl] at hok
      simp only [] at hok
      have hji : j = i := by injection hok
      subst hji
      exact hwf.1 h j hl

/-- Witness for C5: in a one-entry registry, the registered hash 5 retrieves
entry 0 and the unregistered hash 7 fails with HashNotFound. -/
theorem tryFindKernelByHash_direct_witness :
    KernelRegistry.TryFindKernelByHash
        ⟨[("Relu ai.onnx CPU", ⟨⟨"Relu", "", "CPU", [], 5⟩, 0⟩)], [(5, 0)]⟩ 5 =
      .ok 0 ∧
      KernelRegistry.TryFindKernelByHash
        ⟨[("Relu ai.onnx CPU", ⟨⟨"Relu", "", "CPU", [], 5⟩, 0⟩)], [(5, 0)]⟩ 7 =
      .error KernelLookupError.HashNotFound :=
  ⟨(tryFindKernelByHash_direct
      ⟨[("Relu ai.onnx CPU", ⟨⟨"Relu", "", "CPU", [], 5⟩, 0⟩)], [(5, 0)]⟩ 5).1 0
      (by decide),
   (tryFindKernelByHash_direct
      ⟨[("Relu ai.onnx CPU", ⟨⟨"Relu", "", "CPU", [], 5⟩, 0⟩)], [(5, 0)]⟩ 7).2.1
      (by decide)⟩

/-- C3: on a registry whose hash index is well formed (as every registry
reachable by registrations from empty is), a successful full-path match at an
entry implies that looking up that entry's definition hash through the hash
path returns the very same entry. -/
theorem hash_path_equivalence (r : KernelRegistry) (hwf : hashIndexWF r)
    (n : Node) (p : ProviderType) (res : KernelTypeStrResolver) (i : Nat)
    (hfind : r.TryFindKernel n p res = .ok i) :
    ∃ e, r.kernelCreatorFnMap.get? i = some e ∧
      r.TryFindKernelByHash e.2.kernelDef.hashValue = .ok i := by
  obtain ⟨e, hge, hkey, hv⟩ := tryFindKernel_ok_entry r n p res i hfind
  refine ⟨e, hge, ?_⟩
  have hl := hwf.2 i e hge
  unfold KernelRegistry.TryFindKernelByHash
  rw [hl]

/-- Witness for C3: in the reachable one-entry Relu registry, the full path
finds entry 0 and the hash of that entry retrieves the same entry. -/
theorem hash_path_equivalence_witness :
    ∃ e, (registerAll [⟨⟨"Relu", "", "CPU", [], 5⟩, 0⟩]).kernelCreatorFnMap.get?
          0 = some e ∧
      (registerAll [⟨⟨"Relu", "", "CPU", [], 5⟩, 0⟩]).TryFindKernelByHash
        e.2.kernelDef.hashValue = .ok 0 :=
  hash_path_equivalence (registerAll [⟨⟨"Relu", "", "CPU", [], 5⟩, 0⟩])
    (hashIndexWF_registerAll _) ⟨"ai.onnx", "Relu", 14, "", [0], [0]⟩ "CPU" ⟨[]⟩
    0 (by decide)

/-- C4: the hash index stays injective at reachable states: after a
successful registration, a second registration whose hash collides fails
with DuplicateHash and leaves the registry unchanged, while a second
registration with a distinct fresh hash succeeds and both entries remain
independently retrievable by their hashes, preserving well-formedness. -/
theorem register_hash_injective (r : KernelRegistry) (hwf : hashIndexWF r)
    (i1 i2 : KernelCreateInfo) (r1 : KernelRegistry)
    (h1 : r.Register i1 = (Except.ok (), r1)) :
    (i2.kernelDef.hashValue = i1.kernelDef.hashValue →
      r1.Register i2 = (Except.error RegistrationError.DuplicateHash, r1)) ∧
    (i2.kernelDef.hashValue ≠ i1.kernelDef.hashValue →
      lookupList r.kernelDefHashLookup i2.kernelDef.hashValue = none →
      ∃ r2, r1.Register i2 = (Except.ok (), r2) ∧
        r2.TryFindKernelByHash i1.kernelDef.hashValue =
          .ok r.kernelCreatorFnMap.length ∧
        r2.TryFindKernelByHash i2.kernelDef.hashValue =
          .ok (r.kernelCreatorFnMap.length + 1) ∧
        r2.kernelCreatorFnMap.get? r.kernelCreatorFnMap.length =
          some (GetMapKeyOfDef i1.kernelDef, i1) ∧
        r2.kernelCreatorFnMap.get? (r.kernelCreatorFnMap.length + 1) =
          some (GetMapKeyOfDef i2.kernelDef, i2) ∧
        hashIndexWF r2) := by
  obtain ⟨hnone1, hr1⟩ := register_ok_inversion r r1 i1 h1
  constructor
  · intro heq
    apply register_duplicate_inversion
    rw [hr1]
    simp only []
    rw [heq, lookupList_append_of_none _ _ _ hnone1]
    simp [lookupList]
  · intro hne hnone2
    have hx : i1.kernelDef.hashValue ≠ i2.kernelDef.hashValue :=
      fun hcol => hne hcol.symm
    have hl2 : lookupList r1.kernelDefHashLookup i2.kernelDef.hashValue
        = none := by
      rw [hr1]
      simp only []
      rw [lookupList_append_of_none _ _ _ hnone2]
      simp [lookupList, hx]
    have hreg2 := register_ok_of_absent r1 i2 hl2
    refine ⟨_, hreg2, ?_, ?_, ?_, ?_, ?_⟩
    · unfold KernelRegistry.TryFindKernelByHash
      rw [hr1]
      simp only []
      have hfst : lookupList
          (r.kernelDefHashLookup ++
            [(i1.kernelDef.hashValue, r.kernelCreatorFnMap.length)])
          i1.kernelDef.hashValue = some r.kernelCreatorFnMap.length := by
        rw [lookupList_append_of_none _ _ _ hnone1]
        simp [lookupList]
      rw [lookupList_append_of_some _ _ _ _ hfst]
    · unfold KernelRegistry.TryFindKernelByHash
      rw [hr1]
      simp only []
      have houter : lookupList
          (r.kernelDefHashLookup ++
            [(i1.kernelDef.hashValue, r.kernelCreatorFnMap.length)])
          i2.kernelDef.hashValue = none := by
        rw [lookupList_append_of_none _ _ _ hnone2]
        simp [lookupList, hx]
      rw [lookupList_append_of_none _ _ _ houter]
      simp [lookupList, hr1]
    · rw [hr1]
      simp only []
      rw [List.get?_append
        (by simp [Nat.lt_succ_self] :
          r.kernelCreatorFnMap.length <
            (r.kernelCreatorFnMap ++
              [(GetMapKeyOfDef i1.kernelDef, i1)]).length)]
      rw [List.get?_append_right (Nat.le_refl _)]
      simp
    · rw [hr1]
      simp only []
      rw [List.get?_append_right
        (by simp :
          (r.kernelCreatorFnMap ++
            [(GetMapKeyOfDef i1.kernelDef, i1)]).length ≤
            r.kernelCreatorFnMap.length + 1)]
      simp
    · have w1 : hashIndexWF r1 := by
        have := hashIndexWF_register r i1 hwf
        rw [h1] at this
        exact this
      have w2 := hashIndexWF_register r1 i2 w1
      rw [hreg2] at w2
      exact w2

/-- Witness for C4: registering hash 5 twice on the empty registry fails the
second registration with DuplicateHash and leaves the one-entry registry
unchanged. -/
theorem register_hash_injective_witness :
    (⟨[("Relu ai.onnx CPU", ⟨⟨"Relu", "", "CPU", [], 5⟩, 0⟩)],
        [(5, 0)]⟩ : KernelRegistry).Register ⟨⟨"Clip", "", "CPU", [], 5⟩, 1⟩ =
      (Except.error RegistrationError.DuplicateHash,
        ⟨[("Relu ai.onnx CPU", ⟨⟨"Relu", "", "CPU", [], 5⟩, 0⟩)], [(5, 0)]⟩) :=
  (register_hash_injective KernelRegistry.empty hashIndexWF_empty
    ⟨⟨"Relu", "", "CPU", [], 5⟩, 0⟩ ⟨⟨"Clip", "", "CPU", [], 5⟩, 1⟩
    ⟨[("Relu ai.onnx CPU", ⟨⟨"Relu", "", "CPU", [], 5⟩, 0⟩)], [(5, 0)]⟩
    (by decide)).1 (by decide)

end onnxruntime
